/-
Verification of the Interstate '76 GEO importer core
(src/i76_geo_importer_batch.py) against its natural-language
specification.

Shallow embedding conventions:
  * a Python byte stream is a `List Nat` read from the front; `f.read(n)`
    returns `take n` / advances by `drop n` (silently short at end of
    stream, exactly like Python's `file.read`);
  * `struct.unpack("<I", f.read(4))` / `"<f"` raise `struct.error` when
    fewer than 4 bytes remain; this is the `.structError` case;
  * 32-bit floats are never interpreted numerically by the parser, so a
    parsed f32 is carried as its raw 4-byte little-endian word (a `Nat`);
    the mesh builder is generic in the scalar type so that algebraic
    claims about scaling can be stated over `ℚ`;
  * the bmesh collaborator: `bm.verts.new` handles are identified with
    the position index they are created at; `bm.faces.new` raises
    ValueError when the three handles are not pairwise distinct or when a
    face over the same vertex set already exists (documented Blender
    behaviour, relied upon by the source's `except ValueError` at line
    109); Python list indexing `verts[i]` raises an uncaught IndexError
    when `i` is out of range;
  * `bpy.data.materials.new(t)` returns a fresh handle named `t`,
    modelled by a batch-wide fresh counter.
-/
import Mathlib

set_option maxRecDepth 10000

/-- A byte stream: each element is one byte value (0..255). -/
abbrev Bytes := List Nat

/-- Decidable equality for `Except`, needed so that witnesses can be
checked by `decide`. -/
instance {ε α : Type} [DecidableEq ε] [DecidableEq α] :
    DecidableEq (Except ε α) := fun a b =>
  match a, b with
  | .error e, .error e' =>
    if h : e = e' then .isTrue (by rw [h])
    else .isFalse (by intro hh; cases hh; exact h rfl)
  | .ok x, .ok y =>
    if h : x = y then .isTrue (by rw [h])
    else .isFalse (by intro hh; cases hh; exact h rfl)
  | .error _, .ok _ => .isFalse (by intro hh; cases hh)
  | .ok _, .error _ => .isFalse (by intro hh; cases hh)

/-- Structural decode failures of `parse_geo_classic` (source lines 33-44
and every `struct.unpack` call): `ValueError("File too small...")`,
`ValueError("Unreasonable counts...")`, and `struct.error` from a short
4-byte read. -/
inductive GeoErr where
  | tooSmall
  | unreasonableCounts (v f : Nat)
  | structError
deriving DecidableEq

/-- Source line 24: `def rU32(f): return struct.unpack("<I", f.read(4))[0]`.
Reads 4 bytes little-endian; `struct.error` when fewer than 4 remain. -/
def rU32 : Bytes → Except GeoErr (Nat × Bytes)
  | b0 :: b1 :: b2 :: b3 :: rest =>
      .ok (b0 + 256 * b1 + 65536 * b2 + 16777216 * b3, rest)
  | _ => .error .structError

/-- Source line 25: `rF32`. The parser never interprets the float value, so
the raw little-endian 4-byte word is carried as a `Nat`. -/
def rF32 : Bytes → Except GeoErr (Nat × Bytes) := rU32

/-- Decoding of a fixed-width byte field as ASCII up to the first null:
`bytes.split(b"\x00", 1)[0].decode("ascii", "ignore")` — bytes before the
first zero, non-ASCII (≥ 128) bytes dropped by the "ignore" policy. -/
def cstrOf (bs : Bytes) : String :=
  String.mk (((bs.takeWhile (fun b => b != 0)).filter (fun b => b < 128)).map
    (fun b => Char.ofNat b))

/-- Source line 26: `def rCSTR(f, n): return f.read(n).split(b"\x00", 1)[0]
.decode("ascii", "ignore")`. Like `f.read`, never fails — a short read at
end of stream just yields fewer bytes. -/
def rCSTR (n : Nat) (s : Bytes) : String × Bytes :=
  (cstrOf (s.take n), s.drop n)

/-- Source line 27: `read_vec3` — three consecutive f32 reads. -/
def read_vec3 (s : Bytes) : Except GeoErr ((Nat × Nat × Nat) × Bytes) :=
  match rF32 s with
  | .error e => .error e
  | .ok (x, s) =>
  match rF32 s with
  | .error e => .error e
  | .ok (y, s) =>
  match rF32 s with
  | .error e => .error e
  | .ok (z, s) => .ok ((x, y, z), s)

/-- Source line 46/47: `[read_vec3(f) for _ in range(n)]`. -/
def readVec3s : Nat → Bytes → Except GeoErr (List (Nat × Nat × Nat) × Bytes)
  | 0, s => .ok ([], s)
  | n + 1, s =>
    match read_vec3 s with
    | .error e => .error e
    | .ok (v, s) =>
    match readVec3s n s with
    | .error e => .error e
    | .ok (vs, s) => .ok (v :: vs, s)

/-- One face-corner reference as parsed at source lines 64-67:
`(vi, ni, (u, v))`; the scalar type is generic so that the builder can be
used both on raw parsed words (`Nat`) and on `ℚ` for algebraic claims. -/
structure CornerRef (α : Type) where
  vi : Nat
  ni : Nat
  uv : α × α
deriving DecidableEq

/-- One face record as parsed at source line 68:
`{"tex": tex, "refs": refs}`. -/
structure GeoFace (α : Type) where
  tex : String
  refs : List (CornerRef α)
deriving DecidableEq

/-- The decoded model as returned at source line 70:
`{"name": name, "verts": verts, "faces": faces}`.  Note the returned
dictionary has no `norms` key. -/
structure GeoModel (α : Type) where
  name : String
  verts : List (α × α × α)
  faces : List (GeoFace α)
deriving DecidableEq

/-- Source lines 63-67: the per-face corner loop,
`for __ in range(nv): vi = rU32(f); ni = rU32(f); u, v = read_vec2(f)`. -/
def parseCorners : Nat → Bytes → Except GeoErr (List (CornerRef Nat) × Bytes)
  | 0, s => .ok ([], s)
  | n + 1, s =>
    match rU32 s with
    | .error e => .error e
    | .ok (vi, s) =>
    match rU32 s with
    | .error e => .error e
    | .ok (ni, s) =>
    match rF32 s with
    | .error e => .error e
    | .ok (u, s) =>
    match rF32 s with
    | .error e => .error e
    | .ok (v, s) =>
    match parseCorners n s with
    | .error e => .error e
    | .ok (refs, s) => .ok (⟨vi, ni, (u, v)⟩ :: refs, s)

/-- Source lines 51-68: one face record.  `face_id = rU32(f)`;
`nv = rU32(f)`; then the opaque reads `f.read(3)`, `f.read(16)`,
`f.read(4)`, `f.read(3)` (lines 54-57); `tex = rCSTR(f, 13) or
"i76_default"` (line 58); two `f.read(4)` (lines 59-60); then the corner
loop. -/
def parseFace (s : Bytes) : Except GeoErr (GeoFace Nat × Bytes) :=
  match rU32 s with
  | .error e => .error e
  | .ok (_face_id, s) =>
  match rU32 s with
  | .error e => .error e
  | .ok (nv, s) =>
  let s := (((s.drop 3).drop 16).drop 4).drop 3
  let (tex0, s) := rCSTR 13 s
  let tex := if tex0 = "" then "i76_default" else tex0
  let s := (s.drop 4).drop 4
  match parseCorners nv s with
  | .error e => .error e
  | .ok (refs, s) => .ok (⟨tex, refs⟩, s)

/-- Source line 50: `for _ in range(fct)` over `parseFace`. -/
def parseFaces : Nat → Bytes → Except GeoErr (List (GeoFace Nat) × Bytes)
  | 0, s => .ok ([], s)
  | n + 1, s =>
    match parseFace s with
    | .error e => .error e
    | .ok (f, s) =>
    match parseFaces n s with
    | .error e => .error e
    | .ok (fs, s) => .ok (f :: fs, s)

/-- Source lines 35-44: magic (read, unvalidated), unknown u32, 16-byte
name with base-name fallback (`rCSTR(f, 16) or os.path.basename(path)`),
`vct`, `fct`, reserved u32, and the sanity check
`1 <= vct <= 2_000_000 and 1 <= fct <= 2_000_000`. -/
def parseHeader (basename : String) (s : Bytes) :
    Except GeoErr ((String × Nat × Nat) × Bytes) :=
  let (_magic, s) := rCSTR 4 s
  match rU32 s with
  | .error e => .error e
  | .ok (_u1, s) =>
  let (name0, s) := rCSTR 16 s
  let name := if name0 = "" then basename else name0
  match rU32 s with
  | .error e => .error e
  | .ok (vct, s) =>
  match rU32 s with
  | .error e => .error e
  | .ok (fct, s) =>
  match rU32 s with
  | .error e => .error e
  | .ok (_u2, s) =>
  if 1 ≤ vct ∧ vct ≤ 2000000 ∧ 1 ≤ fct ∧ fct ≤ 2000000 then
    .ok ((name, vct, fct), s)
  else
    .error (.unreasonableCounts vct fct)

/-- Source lines 46-68 after the header: vertex array, normal array (read
into a local that the `return` at line 70 does not include), face list. -/
def parseBody (vct fct : Nat) (s : Bytes) :
    Except GeoErr ((List (Nat × Nat × Nat) × List (GeoFace Nat)) × Bytes) :=
  match readVec3s vct s with
  | .error e => .error e
  | .ok (verts, s) =>
  match readVec3s vct s with
  | .error e => .error e
  | .ok (_norms, s) =>
  match parseFaces fct s with
  | .error e => .error e
  | .ok (faces, s) => .ok ((verts, faces), s)

/-- Source lines 30-70, additionally returning the unread tail of the
stream so that byte-consumption facts can be stated.  The
`os.path.getsize` minimum-size guard of line 33 is the length test. -/
def parse_geo_core (basename : String) (data : Bytes) :
    Except GeoErr (GeoModel Nat × Bytes) :=
  if data.length < 64 then .error .tooSmall
  else
    match parseHeader basename data with
    | .error e => .error e
    | .ok ((name, vct, fct), s) =>
    match parseBody vct fct s with
    | .error e => .error e
    | .ok ((verts, faces), s) => .ok (⟨name, verts, faces⟩, s)

/-- Source `parse_geo_classic(path)`: the model returned at line 70.
`basename` stands for `os.path.basename(path)`. -/
def parse_geo_classic (basename : String) (data : Bytes) :
    Except GeoErr (GeoModel Nat) :=
  match parse_geo_core basename data with
  | .error e => .error e
  | .ok (m, _) => .ok m

/-! ### Mesh builder (source lines 72-119) -/

/-- A Blender material handle: created by `bpy.data.materials.new(t)`
(source line 87), identified by a batch-wide fresh id, carrying the name
it was created with. -/
structure MatHandle where
  mid : Nat
  mname : String
deriving DecidableEq

/-- The only uncaught exception of the triangle loop: Python's
`IndexError` from `verts[i]` with `i` out of range (source line 108)
escapes `build_mesh` because line 109 catches only `ValueError`. -/
inductive BuildErr where
  | indexError
deriving DecidableEq

/-- One emitted bmesh face (source lines 108-114): three position
indices, the face's material index, per-corner UVs, smooth flag. -/
structure MeshTri (α : Type) where
  v : Nat × Nat × Nat
  matIndex : Nat
  uvs : (α × α) × (α × α) × (α × α)
  smooth : Bool
deriving DecidableEq

/-- The data `build_mesh` returns (the populated object `ob`): scaled
position buffer, emitted triangles, material list in slot order. -/
structure MeshObject (α : Type) where
  oname : String
  positions : List (α × α × α)
  tris : List (MeshTri α)
  mats : List MatHandle
deriving DecidableEq

/-- Source line 77: `(x*scale, y*scale, z*scale)`. -/
def scaleVert {α : Type} [Mul α] (scale : α) (p : α × α × α) : α × α × α :=
  (p.1 * scale, p.2.1 * scale, p.2.2 * scale)

/-- Python `dict` lookup on the material cache, modelled as first match in
an insertion-ordered association list. -/
def lookupCache (c : List (String × MatHandle)) (t : String) :
    Option MatHandle :=
  match c with
  | [] => none
  | (k, m) :: rest => if k = t then some m else lookupCache rest t

/-- Source lines 84-91: the material pass.  For each face: insert a fresh
material into the shared cache when the texture name is absent, then
append the cached handle to the object's material list when no slot with
that name exists yet.  Returns (cache, fresh counter, `ob.data.materials`). -/
def matsPass {α : Type} : List (GeoFace α) → List (String × MatHandle) →
    Nat → List MatHandle →
    List (String × MatHandle) × Nat × List MatHandle
  | [], cache, fresh, obMats => (cache, fresh, obMats)
  | f :: rest, cache, fresh, obMats =>
    let step :
        List (String × MatHandle) × Nat × MatHandle :=
      match lookupCache cache f.tex with
      | some m => (cache, fresh, m)
      | none => (cache ++ [(f.tex, ⟨fresh, f.tex⟩)], fresh + 1, ⟨fresh, f.tex⟩)
    let cache := step.1
    let fresh := step.2.1
    let m := step.2.2
    let obMats :=
      if obMats.any (fun m2 => m2.mname = m.mname) then obMats
      else obMats ++ [m]
    matsPass rest cache fresh obMats

/-- Source line 97 and the `.get(face["tex"], 0)` of line 102: the
material-name → slot-index dictionary built by
`{m.name: i for i, m in enumerate(ob.data.materials)}` (later entries
overwrite earlier ones, default 0). -/
def matIndexOf (mats : List MatHandle) (t : String) : Nat :=
  (mats.foldl
    (fun (st : Nat × Nat) m =>
      if m.mname = t then (st.2, st.2 + 1) else (st.1, st.2 + 1))
    (0, 0)).1

/-- The fan triples `(refs[0], refs[i-1], refs[i])` for `i` in
`range(2, len(refs))` (source lines 103-106). -/
def fanTriples {β : Type} (a : β) : List β → List (β × β × β)
  | b :: c :: rest => (a, b, c) :: fanTriples a (c :: rest)
  | _ => []

/-- All fan triples of one face's corner list. -/
def faceTriples {β : Type} : List β → List (β × β × β)
  | a :: b :: rest => fanTriples a (b :: rest)
  | _ => []

/-- Vertex-index triple of a corner triple. -/
def triOf {α : Type} (t : CornerRef α × CornerRef α × CornerRef α) :
    Nat × Nat × Nat :=
  (t.1.vi, t.2.1.vi, t.2.2.vi)

/-- Set-equality test on two vertex-index triples: the check
`BM_face_exists` performs when `bm.faces.new` reports
"face already exists" (order-insensitive). -/
def triSetEq (t u : Nat × Nat × Nat) : Bool :=
  (t.1 == u.1 || t.1 == u.2.1 || t.1 == u.2.2) &&
  (t.2.1 == u.1 || t.2.1 == u.2.1 || t.2.1 == u.2.2) &&
  (t.2.2 == u.1 || t.2.2 == u.2.1 || t.2.2 == u.2.2) &&
  (u.1 == t.1 || u.1 == t.2.1 || u.1 == t.2.2) &&
  (u.2.1 == t.1 || u.2.1 == t.2.1 || u.2.1 == t.2.2) &&
  (u.2.2 == t.1 || u.2.2 == t.2.1 || u.2.2 == t.2.2)

/-- The triangle built from a fan triple at source lines 108-114. -/
def mkTri {α : Type} (mid : Nat)
    (t : CornerRef α × CornerRef α × CornerRef α) : MeshTri α :=
  ⟨triOf t, mid, (t.1.uv, t.2.1.uv, t.2.2.uv), true⟩

/-- Source lines 104-114, one face's fan loop.  `n` is the length of the
`verts` handle list.  Evaluating `verts[a[0]], verts[b[0]], verts[c[0]]`
raises IndexError (uncaught → abort) when an index is out of range;
`bm.faces.new` raises ValueError (caught → `continue`) on a repeated
handle or an already-existing face. -/
def emitTris {α : Type} (n mid : Nat) :
    List (MeshTri α) → List (CornerRef α × CornerRef α × CornerRef α) →
    Except BuildErr (List (MeshTri α))
  | acc, [] => .ok acc
  | acc, t :: rest =>
    if n ≤ t.1.vi ∨ n ≤ t.2.1.vi ∨ n ≤ t.2.2.vi then .error .indexError
    else if t.1.vi = t.2.1.vi ∨ t.1.vi = t.2.2.vi ∨ t.2.1.vi = t.2.2.vi ∨
        acc.any (fun tr => triSetEq tr.v (triOf t)) then
      emitTris n mid acc rest
    else
      emitTris n mid (acc ++ [mkTri mid t]) rest

/-- Source lines 98-114: the triangulation pass over all faces, skipping
faces with fewer than 3 corners (line 100). -/
def buildTris {α : Type} (n : Nat) (obMats : List MatHandle) :
    List (MeshTri α) → List (GeoFace α) → Except BuildErr (List (MeshTri α))
  | acc, [] => .ok acc
  | acc, f :: rest =>
    if f.refs.length < 3 then buildTris n obMats acc rest
    else
      match emitTris n (matIndexOf obMats f.tex) acc (faceTriples f.refs) with
      | .error e => .error e
      | .ok acc => buildTris n obMats acc rest

/-- Source lines 72-119: `build_mesh(geo, scale, mat_cache)`.  Returns the
built object (or the escaped IndexError) together with the cache and the
fresh-material counter; the cache mutation of lines 84-91 persists even
when the triangle loop later raises, exactly as the in-place `dict`
mutation does in Python. -/
def build_mesh {α : Type} [Mul α] (geo : GeoModel α) (scale : α)
    (mat_cache : List (String × MatHandle)) (fresh : Nat) :
    Except BuildErr (MeshObject α) × List (String × MatHandle) × Nat :=
  let positions := geo.verts.map (scaleVert scale)
  let r := matsPass geo.faces mat_cache fresh []
  let cache2 := r.1
  let fresh2 := r.2.1
  let obMats := r.2.2
  match buildTris geo.verts.length obMats [] geo.faces with
  | .error e => (.error e, cache2, fresh2)
  | .ok tris => (.ok ⟨geo.name, positions, tris, obMats⟩, cache2, fresh2)

/-! ### Batch operator (source lines 156-218, data-transformation part) -/

/-- One input file of a batch: its path, its base name
(`os.path.basename`), and its contents. -/
structure BatchFile where
  path : String
  basename : String
  data : Bytes
deriving DecidableEq

/-- The `str(e)` rendering of the decode errors raised by
`parse_geo_classic` (source lines 34 and 44; `struct.error` text from
CPython). -/
def geoErrMsg : GeoErr → String
  | .tooSmall => "File too small to be a GEO"
  | .unreasonableCounts v f =>
      "Unreasonable counts v=" ++ toString v ++ " f=" ++ toString f
  | .structError => "unpack requires a buffer of 4 bytes"

/-- The `str(e)` rendering of the IndexError escaping `build_mesh`. -/
def buildErrMsg : BuildErr → String
  | .indexError => "list index out of range"

/-- Source lines 183-204: the per-path loop of `execute`.  Each path is
attempted; `except Exception` records `(path, str(e))` and continues;
success increments `imported`.  Host-side scene linking is out of scope.
Returns (imported, errors, cache, fresh counter). -/
def executeBatch (scale : Nat) :
    List BatchFile → List (String × MatHandle) → Nat → Nat →
    List (String × String) →
    Nat × List (String × String) × List (String × MatHandle) × Nat
  | [], cache, fresh, imported, errors => (imported, errors, cache, fresh)
  | file :: rest, cache, fresh, imported, errors =>
    match parse_geo_classic file.basename file.data with
    | .error e =>
        executeBatch scale rest cache fresh imported
          (errors ++ [(file.path, geoErrMsg e)])
    | .ok geo =>
        let r := build_mesh geo scale cache fresh
        match r.1 with
        | .error e =>
            executeBatch scale rest r.2.1 r.2.2 imported
              (errors ++ [(file.path, buildErrMsg e)])
        | .ok _ob =>
            executeBatch scale rest r.2.1 r.2.2 (imported + 1) errors

/-! ### Closed forms used to state the byte-layout lemmas -/

/-- Little-endian 4-byte encoding of a word (used to assemble concrete
and symbolic input files). -/
def u32le (w : Nat) : Bytes :=
  [w % 256, w / 256 % 256, w / 65536 % 256, w / 16777216 % 256]

/-- Value of the first four bytes of a stream, little-endian (0-padded at
end of stream); closed form of what `rU32` returns. -/
def val4 : Bytes → Nat
  | b0 :: b1 :: b2 :: b3 :: _ => b0 + 256 * b1 + 65536 * b2 + 16777216 * b3
  | _ => 0

/-- Closed form of the vertex/normal block decoder: `n` consecutive
12-byte vectors taken from the front of `b`. -/
def decode3s : Nat → Bytes → List (Nat × Nat × Nat)
  | 0, _ => []
  | n + 1, b =>
    (val4 b, val4 (b.drop 4), val4 (b.drop 8)) :: decode3s n (b.drop 12)

/-- Closed form of the corner-record decoder: `n` consecutive 16-byte
corner records taken from the front of `b`. -/
def decodeCorners : Nat → Bytes → List (CornerRef Nat)
  | 0, _ => []
  | n + 1, b =>
    ⟨val4 b, val4 (b.drop 4), (val4 (b.drop 8), val4 (b.drop 12))⟩ ::
      decodeCorners n (b.drop 16)

/-! ### Concrete inputs used by the witnesses and counterexamples -/

/-- A well-formed 36-byte file header: tag "GEO\0", reserved u32, all-zero
name field (so the base name is substituted), `vct`, `fct`, reserved u32. -/
def hdr36 (vct fct : Nat) : Bytes :=
  [71, 69, 79, 0] ++ List.replicate 4 0 ++ List.replicate 16 0 ++
    u32le vct ++ u32le fct ++ List.replicate 4 0

/-- A face record: id, corner count, 26 opaque bytes, 13-byte texture
field, two opaque u32s, corner records. -/
def faceRec (fid nv : Nat) (texb cb : Bytes) : Bytes :=
  u32le fid ++ u32le nv ++ List.replicate 26 0 ++ texb ++
    List.replicate 8 0 ++ cb

/-- A well-formed 115-byte file: 1 vertex, 1 face with 0 corners, all
payload bytes zero. -/
def bFileOk : Bytes :=
  hdr36 1 1 ++ List.replicate 12 0 ++ List.replicate 12 0 ++
    faceRec 0 0 (List.replicate 13 0) []

/-- The same file with a different (non-zero) normals block. -/
def bFileOkAltNorms : Bytes :=
  hdr36 1 1 ++ List.replicate 12 0 ++ List.replicate 12 1 ++
    faceRec 0 0 (List.replicate 13 0) []

/-- The model both of the previous files decode to. -/
def mFileOk : GeoModel Nat :=
  ⟨"f", [(0, 0, 0)], [⟨"i76_default", []⟩]⟩

/-- A well-formed 131-byte file: 1 vertex, 1 face with one corner
referencing vertex 0. -/
def bFileCorner : Bytes :=
  hdr36 1 1 ++ List.replicate 12 0 ++ List.replicate 12 0 ++
    faceRec 0 1 (List.replicate 13 0) (List.replicate 16 0)

/-- A 187-byte file: 2 vertices, 1 face with corners referencing vertices
0, 1 and the out-of-range index 2 (texture "t"). -/
def bFileBadIdx : Bytes :=
  hdr36 2 1 ++ List.replicate 24 0 ++ List.replicate 24 0 ++
    faceRec 7 3 ([116] ++ List.replicate 12 0)
      (u32le 0 ++ List.replicate 12 0 ++ u32le 1 ++ List.replicate 12 0 ++
        u32le 2 ++ List.replicate 12 0)

/-- The model `bFileBadIdx` decodes to. -/
def mBadIdx : GeoModel Nat :=
  ⟨"f", [(0, 0, 0), (0, 0, 0)],
    [⟨"t", [⟨0, 0, (0, 0)⟩, ⟨1, 0, (0, 0)⟩, ⟨2, 0, (0, 0)⟩]⟩]⟩

/-- A 55-byte face record whose texture field holds "AB" and whose corner
count is 0 (id 0, opaque bytes 0). -/
def bFaceAB : Bytes :=
  faceRec 0 0 ([65, 66] ++ List.replicate 11 0) []

/-- A 55-byte face record whose 13-byte texture field is all zero bytes. -/
def bFaceZeroTex : Bytes :=
  faceRec 0 0 (List.replicate 13 0) []

/-- A model with one degenerate face: corners reference vertices 0, 0, 1
(a repeated position index in the only fan triangle). -/
def mDegen : GeoModel Nat :=
  ⟨"m", [(0, 0, 0), (1, 1, 1)],
    [⟨"t", [⟨0, 0, (0, 0)⟩, ⟨0, 0, (0, 0)⟩, ⟨1, 0, (0, 0)⟩]⟩]⟩

/-- A model with one quad face over 4 distinct vertices (used as the C6
witness input). -/
def mQuad : GeoModel Nat :=
  ⟨"q", [(0, 0, 0), (1, 0, 0), (1, 1, 0), (0, 1, 0)],
    [⟨"t", [⟨0, 0, (0, 1)⟩, ⟨1, 0, (2, 3)⟩, ⟨2, 0, (4, 5)⟩, ⟨3, 0, (6, 7)⟩]⟩]⟩

/-- Three one-face models all referencing texture "chrome01" (the C7
witness batch). -/
def mChrome : GeoModel Nat :=
  ⟨"c", [(0, 0, 0), (1, 0, 0), (2, 0, 0)],
    [⟨"chrome01", [⟨0, 0, (0, 0)⟩, ⟨1, 0, (0, 0)⟩, ⟨2, 0, (0, 0)⟩]⟩]⟩

/-! ### Definitions used only to state claims -/

/-- Modelled from the spec claim C4 disputes: a face decoder whose opaque
face-header block is "exactly 28 bytes" so that the fixed face header
totals 57 bytes (spec §4.1 step 7); written only for comparison with the
source's `parseFace`. -/
def parseFace_spec57 (s : Bytes) : Except GeoErr (GeoFace Nat × Bytes) :=
  match rU32 s with
  | .error e => .error e
  | .ok (_face_id, s) =>
  match rU32 s with
  | .error e => .error e
  | .ok (nv, s) =>
  let s := s.drop 28
  let (tex0, s) := rCSTR 13 s
  let tex := if tex0 = "" then "i76_default" else tex0
  let s := (s.drop 4).drop 4
  match parseCorners nv s with
  | .error e => .error e
  | .ok (refs, s) => .ok (⟨tex, refs⟩, s)

/-- A fan triple is good for a model with `n` vertices when its three
vertex indices are in range and pairwise distinct. -/
def goodTri (n : Nat) (v : Nat × Nat × Nat) : Prop :=
  v.1 < n ∧ v.2.1 < n ∧ v.2.2 < n ∧
  v.1 ≠ v.2.1 ∧ v.1 ≠ v.2.2 ∧ v.2.1 ≠ v.2.2

instance (n : Nat) (v : Nat × Nat × Nat) : Decidable (goodTri n v) := by
  unfold goodTri; infer_instance

/-- All fan triples the triangle pass attempts, in attempt order (faces
with fewer than 3 corners contribute nothing). -/
def allTriples {α : Type} (faces : List (GeoFace α)) :
    List (CornerRef α × CornerRef α × CornerRef α) :=
  faces.flatMap (fun f => if f.refs.length < 3 then [] else faceTriples f.refs)

/-- Sequential `build_mesh` calls over a batch of already-decoded models,
threading the shared material cache and the fresh-material counter, and
collecting the material list of every successfully built object. -/
def buildAll {α : Type} [Mul α] (scale : α) :
    List (GeoModel α) → List (String × MatHandle) → Nat →
    List (List MatHandle) × List (String × MatHandle) × Nat
  | [], cache, fresh => ([], cache, fresh)
  | g :: rest, cache, fresh =>
    let r := build_mesh g scale cache fresh
    let t := buildAll scale rest r.2.1 r.2.2
    ((match r.1 with | .ok ob => [ob.mats] | .error _ => []) ++ t.1, t.2.1, t.2.2)

/-- Keys accumulated by insert-if-absent, in first-appearance order: the
closed form of the cache's key list. -/
def addKeys (ks : List String) (ts : List String) : List String :=
  ts.foldl (fun ks t => if ks.contains t then ks else ks ++ [t]) ks

/-! ### Byte-level reader lemmas -/

/-- A 4-byte read fails exactly when fewer than 4 bytes remain. -/
theorem rU32_short : ∀ (s : Bytes), s.length < 4 → rU32 s = .error .structError
  | [], _ => rfl
  | [_], _ => rfl
  | [_, _], _ => rfl
  | [_, _, _], _ => rfl
  | _ :: _ :: _ :: _ :: _, h => by simp at h; omega

/-- A satisfied 4-byte read returns the little-endian value of the first
four bytes and advances by 4. -/
theorem rU32_of_le : ∀ (s : Bytes), 4 ≤ s.length → rU32 s = .ok (val4 s, s.drop 4)
  | _ :: _ :: _ :: _ :: _, _ => rfl
  | [], h | [_], h | [_, _], h | [_, _, _], h => by simp at h

/-- The first four bytes are unchanged by appending. -/
theorem val4_append : ∀ (b rest : Bytes), 4 ≤ b.length →
    val4 (b ++ rest) = val4 b
  | _ :: _ :: _ :: _ :: _, _, _ => rfl
  | [], _, h | [_], _, h | [_, _], _, h | [_, _, _], _, h => by simp at h

/-- Reading back an encoded 32-bit word. -/
theorem rU32_u32le (w : Nat) (rest : Bytes) :
    rU32 (u32le w ++ rest) = .ok (w % 4294967296, rest) := by
  have hv : w % 256 + 256 * (w / 256 % 256) + 65536 * (w / 65536 % 256) +
      16777216 * (w / 16777216 % 256) = w % 4294967296 := by omega
  simp only [u32le, List.cons_append, List.nil_append, rU32, hv]

/-- Dropping exactly an appended block. -/
theorem drop_append_exact (n : Nat) (b rest : Bytes) (h : b.length = n) :
    (b ++ rest).drop n = rest := by
  rw [← h]; exact List.drop_left b rest

/-- A fixed-width string read over an exactly-sized block. -/
theorem rCSTR_exact (n : Nat) (b rest : Bytes) (h : b.length = n) :
    rCSTR n (b ++ rest) = (cstrOf b, rest) := by
  simp only [rCSTR]
  rw [← h, List.take_left, List.drop_left]

/-- One 12-byte vector read over a sufficiently long stream. -/
theorem readVec3s_step : ∀ (n : Nat) (s : Bytes), 12 ≤ s.length →
    readVec3s (n + 1) s =
      match readVec3s n (s.drop 12) with
      | .error e => .error e
      | .ok (vs, s') =>
          .ok ((val4 s, val4 (s.drop 4), val4 (s.drop 8)) :: vs, s')
  | _, _::_::_::_::_::_::_::_::_::_::_::_::_, _ => rfl
  | _, [], h | _, [_], h | _, [_,_], h | _, [_,_,_], h | _, [_,_,_,_], h
  | _, [_,_,_,_,_], h | _, [_,_,_,_,_,_], h | _, [_,_,_,_,_,_,_], h
  | _, [_,_,_,_,_,_,_,_], h | _, [_,_,_,_,_,_,_,_,_], h
  | _, [_,_,_,_,_,_,_,_,_,_], h | _, [_,_,_,_,_,_,_,_,_,_,_], h => by simp at h

/-- The vertex/normal block reader consumes exactly its 12·n-byte block
and decodes it positionally. -/
theorem readVec3s_exact : ∀ (n : Nat) (b rest : Bytes), b.length = 12 * n →
    readVec3s n (b ++ rest) = .ok (decode3s n b, rest)
  | 0, b, rest, h => by
      have hb : b = [] := List.length_eq_zero.mp (by omega)
      subst hb; rfl
  | n + 1, b, rest, h => by
      have h12 : 12 ≤ b.length := by omega
      rw [readVec3s_step n (b ++ rest) (by simp; omega)]
      have hdrop : (b ++ rest).drop 12 = b.drop 12 ++ rest :=
        List.drop_append_of_le_length h12
      rw [hdrop,
        readVec3s_exact n (b.drop 12) rest (by simp [List.length_drop]; omega)]
      have h4 : (b ++ rest).drop 4 = b.drop 4 ++ rest :=
        List.drop_append_of_le_length (by omega)
      have h8 : (b ++ rest).drop 8 = b.drop 8 ++ rest :=
        List.drop_append_of_le_length (by omega)
      rw [val4_append b rest (by omega), h4, h8,
        val4_append (b.drop 4) rest (by simp [List.length_drop]; omega),
        val4_append (b.drop 8) rest (by simp [List.length_drop]; omega)]
      rfl

/-- One 16-byte corner read over a sufficiently long stream. -/
theorem parseCorners_step : ∀ (n : Nat) (s : Bytes), 16 ≤ s.length →
    parseCorners (n + 1) s =
      match parseCorners n (s.drop 16) with
      | .error e => .error e
      | .ok (refs, s') =>
          .ok (⟨val4 s, val4 (s.drop 4), (val4 (s.drop 8), val4 (s.drop 12))⟩ :: refs, s')
  | _, _::_::_::_::_::_::_::_::_::_::_::_::_::_::_::_::_, _ => rfl
  | _, [], h | _, [_], h | _, [_,_], h | _, [_,_,_], h | _, [_,_,_,_], h
  | _, [_,_,_,_,_], h | _, [_,_,_,_,_,_], h | _, [_,_,_,_,_,_,_], h
  | _, [_,_,_,_,_,_,_,_], h | _, [_,_,_,_,_,_,_,_,_], h
  | _, [_,_,_,_,_,_,_,_,_,_], h | _, [_,_,_,_,_,_,_,_,_,_,_], h
  | _, [_,_,_,_,_,_,_,_,_,_,_,_], h | _, [_,_,_,_,_,_,_,_,_,_,_,_,_], h
  | _, [_,_,_,_,_,_,_,_,_,_,_,_,_,_], h
  | _, [_,_,_,_,_,_,_,_,_,_,_,_,_,_,_], h => by simp at h

/-- The corner loop consumes exactly its 16·n-byte block and decodes it
positionally. -/
theorem parseCorners_exact : ∀ (n : Nat) (b rest : Bytes), b.length = 16 * n →
    parseCorners n (b ++ rest) = .ok (decodeCorners n b, rest)
  | 0, b, rest, h => by
      have hb : b = [] := List.length_eq_zero.mp (by omega)
      subst hb; rfl
  | n + 1, b, rest, h => by
      have h16 : 16 ≤ b.length := by omega
      rw [parseCorners_step n (b ++ rest) (by simp; omega)]
      have hdrop : (b ++ rest).drop 16 = b.drop 16 ++ rest :=
        List.drop_append_of_le_length h16
      rw [hdrop,
        parseCorners_exact n (b.drop 16) rest (by simp [List.length_drop]; omega)]
      have h4 : (b ++ rest).drop 4 = b.drop 4 ++ rest :=
        List.drop_append_of_le_length (by omega)
      have h8 : (b ++ rest).drop 8 = b.drop 8 ++ rest :=
        List.drop_append_of_le_length (by omega)
      have h12 : (b ++ rest).drop 12 = b.drop 12 ++ rest :=
        List.drop_append_of_le_length (by omega)
      rw [val4_append b rest (by omega), h4, h8, h12,
        val4_append (b.drop 4) rest (by simp [List.length_drop]; omega),
        val4_append (b.drop 8) rest (by simp [List.length_drop]; omega),
        val4_append (b.drop 12) rest (by simp [List.length_drop]; omega)]
      rfl

/-- The corner loop fails with the struct error when the stream is
shorter than the declared 16·n corner bytes. -/
theorem parseCorners_short : ∀ (n : Nat) (s : Bytes), s.length < 16 * n →
    parseCorners n s = .error .structError
  | 0, _, h => by simp at h
  | _ + 1, [], _ => rfl
  | _ + 1, [_], _ => rfl
  | _ + 1, [_,_], _ => rfl
  | _ + 1, [_,_,_], _ => rfl
  | _ + 1, [_,_,_,_], _ => rfl
  | _ + 1, [_,_,_,_,_], _ => rfl
  | _ + 1, [_,_,_,_,_,_], _ => rfl
  | _ + 1, [_,_,_,_,_,_,_], _ => rfl
  | _ + 1, [_,_,_,_,_,_,_,_], _ => rfl
  | _ + 1, [_,_,_,_,_,_,_,_,_], _ => rfl
  | _ + 1, [_,_,_,_,_,_,_,_,_,_], _ => rfl
  | _ + 1, [_,_,_,_,_,_,_,_,_,_,_], _ => rfl
  | _ + 1, [_,_,_,_,_,_,_,_,_,_,_,_], _ => rfl
  | _ + 1, [_,_,_,_,_,_,_,_,_,_,_,_,_], _ => rfl
  | _ + 1, [_,_,_,_,_,_,_,_,_,_,_,_,_,_], _ => rfl
  | _ + 1, [_,_,_,_,_,_,_,_,_,_,_,_,_,_,_], _ => rfl
  | n + 1, b0::b1::b2::b3::b4::b5::b6::b7::b8::b9::b10::b11::b12::b13::b14::b15::t, h => by
      rw [parseCorners_step n (b0::b1::b2::b3::b4::b5::b6::b7::b8::b9::b10::b11::b12::b13::b14::b15::t)
        (by simp only [List.length_cons]; omega)]
      rw [show ((b0::b1::b2::b3::b4::b5::b6::b7::b8::b9::b10::b11::b12::b13::b14::b15::t) : Bytes).drop 16 = t
        from rfl]
      rw [parseCorners_short n t (by simp only [List.length_cons] at h; omega)]

/-- Four successive byte-drops collapse to the 26-byte opaque block. -/
theorem drop26 : ∀ l : Bytes, (((l.drop 3).drop 16).drop 4).drop 3 = l.drop 26 := by
  intro l
  rw [List.drop_drop, List.drop_drop, List.drop_drop]

/-- Two successive 4-byte drops collapse to the 8 trailing opaque bytes. -/
theorem drop8 : ∀ l : Bytes, ((l.drop 4).drop 4 : Bytes) = l.drop 8 := by
  intro l
  rw [List.drop_drop]

/-- Marching `parseFace` through an assembled face record: fixed header of
4 + 4 + 26 + 13 + 8 = 55 bytes, then the corner loop on the tail. -/
theorem parseFace_march (fid nv : Nat) (op texb u8 T : Bytes)
    (hnv : nv < 4294967296) (hop : op.length = 26) (htex : texb.length = 13)
    (hu : u8.length = 8) :
    parseFace (u32le fid ++ (u32le nv ++ (op ++ (texb ++ (u8 ++ T))))) =
      match parseCorners nv T with
      | .error e => .error e
      | .ok (refs, s) =>
          .ok (⟨if cstrOf texb = "" then "i76_default" else cstrOf texb, refs⟩, s) := by
  have e1 := rU32_u32le fid (u32le nv ++ (op ++ (texb ++ (u8 ++ T))))
  have e2 := rU32_u32le nv (op ++ (texb ++ (u8 ++ T)))
  have e3 : ((op ++ (texb ++ (u8 ++ T))) : Bytes).drop 26 = texb ++ (u8 ++ T) :=
    drop_append_exact 26 op _ hop
  have e4 := rCSTR_exact 13 texb (u8 ++ T) htex
  have e6 : ((u8 ++ T) : Bytes).drop 8 = T := drop_append_exact 8 u8 T hu
  simp only [parseFace, e1, e2, Nat.mod_eq_of_lt hnv, drop26, e3, e4, drop8, e6]

/-- A face record whose corner block is shorter than its declared
16·nv corner bytes (and is the end of the stream) fails structurally. -/
theorem parseFace_fail (fid nv : Nat) (op texb u8 cb : Bytes)
    (hnv : nv < 4294967296) (hop : op.length = 26) (htex : texb.length = 13)
    (hu : u8.length = 8) (hcb : cb.length < 16 * nv) :
    parseFace (u32le fid ++ (u32le nv ++ (op ++ (texb ++ (u8 ++ cb))))) =
      .error .structError := by
  rw [parseFace_march fid nv op texb u8 cb hnv hop htex hu,
    parseCorners_short nv cb hcb]

/-- Definitional unfolding of one face-loop step. -/
theorem parseFaces_succ (n : Nat) (s : Bytes) :
    parseFaces (n + 1) s =
      match parseFace s with
      | .error e => .error e
      | .ok (f, s') =>
        match parseFaces n s' with
        | .error e => .error e
        | .ok (fs, s'') => .ok (f :: fs, s'') := rfl

/-- Splitting the face loop at an intermediate count. -/
theorem parseFaces_add : ∀ (k j : Nat) (s : Bytes),
    parseFaces (k + j) s =
      match parseFaces k s with
      | .error e => .error e
      | .ok (fs1, s1) =>
        match parseFaces j s1 with
        | .error e => .error e
        | .ok (fs2, s2) => .ok (fs1 ++ fs2, s2)
  | 0, j, s => by
      rw [Nat.zero_add]
      cases hj : parseFaces j s with
      | error e => simp [parseFaces, hj]
      | ok p => obtain ⟨fs, s2⟩ := p; simp [parseFaces, hj]
  | k + 1, j, s => by
      have he : k + 1 + j = (k + j) + 1 := by omega
      rw [he]
      simp only [parseFaces_succ]
      cases hf : parseFace s with
      | error e => simp only [hf]
      | ok p =>
        obtain ⟨f, s'⟩ := p
        simp only [hf]
        rw [parseFaces_add k j s']
        cases h1 : parseFaces k s' with
        | error e => simp only [h1]
        | ok p1 =>
          obtain ⟨fs1, s1⟩ := p1
          simp only [h1]
          cases h2 : parseFaces j s1 with
          | error e => simp only [h2]
          | ok p2 => obtain ⟨fs2, s2⟩ := p2; simp only [h2, List.cons_append]

/-! ### Builder lemmas -/

/-- Whenever some attempted fan triple has an out-of-range vertex index,
the fan loop raises the IndexError. -/
theorem emitTris_err {α : Type} (n mid : Nat) :
    ∀ (l : List (CornerRef α × CornerRef α × CornerRef α))
      (acc : List (MeshTri α)),
    (∃ t ∈ l, n ≤ t.1.vi ∨ n ≤ t.2.1.vi ∨ n ≤ t.2.2.vi) →
    emitTris n mid acc l = .error .indexError
  | [], acc, h => by simp at h
  | t :: rest, acc, h => by
      simp only [emitTris]
      by_cases hb : n ≤ t.1.vi ∨ n ≤ t.2.1.vi ∨ n ≤ t.2.2.vi
      · rw [if_pos hb]
      · rw [if_neg hb]
        have hrest : ∃ u ∈ rest, n ≤ u.1.vi ∨ n ≤ u.2.1.vi ∨ n ≤ u.2.2.vi := by
          obtain ⟨u, hu, hbad⟩ := h
          rcases List.mem_cons.mp hu with he | hm
          · exact absurd (he ▸ hbad) hb
          · exact ⟨u, hm, hbad⟩
        by_cases hd : t.1.vi = t.2.1.vi ∨ t.1.vi = t.2.2.vi ∨ t.2.1.vi = t.2.2.vi ∨
            acc.any (fun tr => triSetEq tr.v (triOf t))
        · rw [if_pos hd]; exact emitTris_err n mid rest acc hrest
        · rw [if_neg hd]; exact emitTris_err n mid rest (acc ++ [mkTri mid t]) hrest

/-- Whenever some face with at least 3 corners has a fan triple with an
out-of-range vertex index, the triangle pass raises the IndexError. -/
theorem buildTris_err {α : Type} (n : Nat) (obMats : List MatHandle) :
    ∀ (faces : List (GeoFace α)) (acc : List (MeshTri α)),
    (∃ f ∈ faces, 3 ≤ f.refs.length ∧
      ∃ t ∈ faceTriples f.refs, n ≤ t.1.vi ∨ n ≤ t.2.1.vi ∨ n ≤ t.2.2.vi) →
    buildTris n obMats acc faces = .error .indexError
  | [], acc, h => by simp at h
  | f :: rest, acc, h => by
      simp only [buildTris]
      by_cases hlen : f.refs.length < 3
      · rw [if_pos hlen]
        apply buildTris_err n obMats rest acc
        obtain ⟨g, hg, hbad⟩ := h
        rcases List.mem_cons.mp hg with he | hm
        · exact absurd (he ▸ hbad).1 (by omega)
        · exact ⟨g, hm, hbad⟩
      · rw [if_neg hlen]
        by_cases hf : ∃ t ∈ faceTriples f.refs,
            n ≤ t.1.vi ∨ n ≤ t.2.1.vi ∨ n ≤ t.2.2.vi
        · rw [emitTris_err n (matIndexOf obMats f.tex) (faceTriples f.refs) acc hf]
        · have hrest : ∃ g ∈ rest, 3 ≤ g.refs.length ∧
              ∃ t ∈ faceTriples g.refs,
                n ≤ t.1.vi ∨ n ≤ t.2.1.vi ∨ n ≤ t.2.2.vi := by
            obtain ⟨g, hg, hbad⟩ := h
            rcases List.mem_cons.mp hg with he | hm
            · exact absurd (he ▸ hbad).2 hf
            · exact ⟨g, hm, hbad⟩
          cases hemit : emitTris n (matIndexOf obMats f.tex) acc (faceTriples f.refs) with
          | error e => cases e; simp only [hemit]
          | ok acc' => simp only [hemit]; exact buildTris_err n obMats rest acc' hrest

/-- Whenever some face with at least 3 corners has a fan triple with an
out-of-range vertex index, `build_mesh` raises the IndexError. -/
theorem build_mesh_err {α : Type} [Mul α] (geo : GeoModel α) (scale : α)
    (cache : List (String × MatHandle)) (fresh : Nat)
    (h : ∃ f ∈ geo.faces, 3 ≤ f.refs.length ∧
      ∃ t ∈ faceTriples f.refs, geo.verts.length ≤ t.1.vi ∨
        geo.verts.length ≤ t.2.1.vi ∨ geo.verts.length ≤ t.2.2.vi) :
    (build_mesh geo scale cache fresh).1 = .error .indexError := by
  simp only [build_mesh]
  rw [buildTris_err geo.verts.length (matsPass geo.faces cache fresh []).2.2
    geo.faces [] h]

/-- When every attempted triple is in range and non-degenerate, no triple
set-matches anything already in the accumulator, and the triples are
pairwise set-distinct, the fan loop emits exactly one triangle per
triple, in order. -/
theorem emitTris_ok {α : Type} (n mid : Nat) :
    ∀ (l : List (CornerRef α × CornerRef α × CornerRef α))
      (acc : List (MeshTri α)),
    (∀ t ∈ l, goodTri n (triOf t)) →
    (∀ t ∈ l, ∀ tr ∈ acc, triSetEq tr.v (triOf t) = false) →
    l.Pairwise (fun t u => triSetEq (triOf t) (triOf u) = false) →
    emitTris n mid acc l = .ok (acc ++ l.map (mkTri mid))
  | [], acc, _, _, _ => by simp [emitTris]
  | t :: rest, acc, hg, hacc, hpw => by
      simp only [emitTris]
      have hgt : t.1.vi < n ∧ t.2.1.vi < n ∧ t.2.2.vi < n ∧
          t.1.vi ≠ t.2.1.vi ∧ t.1.vi ≠ t.2.2.vi ∧ t.2.1.vi ≠ t.2.2.vi :=
        hg t (List.mem_cons_self t rest)
      have h1 := hgt.1
      have h2 := hgt.2.1
      have h3 := hgt.2.2.1
      rw [if_neg (by rintro (h | h | h) <;> omega)]
      have hda : acc.any (fun tr => triSetEq tr.v (triOf t)) = false :=
        List.any_eq_false.mpr (fun x hx hb => by
          rw [hacc t (List.mem_cons_self t rest) x hx] at hb
          exact Bool.false_ne_true hb)
      rw [if_neg (by
        rintro (h | h | h | h)
        · exact hgt.2.2.2.1 h
        · exact hgt.2.2.2.2.1 h
        · exact hgt.2.2.2.2.2 h
        · rw [hda] at h; exact Bool.false_ne_true h)]
      obtain ⟨hhead, hpw'⟩ := List.pairwise_cons.mp hpw
      rw [emitTris_ok n mid rest (acc ++ [mkTri mid t])
        (fun u hu => hg u (List.mem_cons_of_mem t hu))
        (by
          intro u hu tr htr
          rcases List.mem_append.mp htr with hin | hone
          · exact hacc u (List.mem_cons_of_mem t hu) tr hin
          · have he : tr = mkTri mid t := List.mem_singleton.mp hone
            rw [he]
            exact hhead u hu)
        hpw']
      simp [List.append_assoc]

/-- When every attempted triple of every face is in range and
non-degenerate and all attempted triples are pairwise set-distinct, the
triangle pass emits, face by face in order, exactly the fan triangles
of each face with at least 3 corners, with that face's material index
and corner UVs. -/
theorem buildTris_ok {α : Type} (n : Nat) (obMats : List MatHandle) :
    ∀ (faces : List (GeoFace α)) (acc : List (MeshTri α)),
    (∀ t ∈ allTriples faces, goodTri n (triOf t)) →
    (∀ t ∈ allTriples faces, ∀ tr ∈ acc, triSetEq tr.v (triOf t) = false) →
    (allTriples faces).Pairwise (fun t u => triSetEq (triOf t) (triOf u) = false) →
    buildTris n obMats acc faces =
      .ok (acc ++ faces.flatMap (fun f =>
        if f.refs.length < 3 then []
        else (faceTriples f.refs).map (mkTri (matIndexOf obMats f.tex))))
  | [], acc, _, _, _ => by simp [buildTris, allTriples]
  | f :: rest, acc, hg, hacc, hpw => by
      simp only [buildTris]
      by_cases hlen : f.refs.length < 3
      · have hsplit : allTriples (f :: rest) = allTriples rest := by
          simp [allTriples, List.flatMap_cons, if_pos hlen]
        rw [hsplit] at hg hacc hpw
        rw [if_pos hlen,
          buildTris_ok n obMats rest acc hg hacc hpw,
          List.flatMap_cons, if_pos hlen, List.nil_append]
      · have hsplit : allTriples (f :: rest) =
            faceTriples f.refs ++ allTriples rest := by
          simp [allTriples, List.flatMap_cons, if_neg hlen]
        rw [hsplit] at hg hacc hpw
        obtain ⟨hpw1, hpw2, hcross⟩ := List.pairwise_append.mp hpw
        rw [if_neg hlen]
        rw [emitTris_ok n (matIndexOf obMats f.tex) (faceTriples f.refs) acc
          (fun t ht => hg t (List.mem_append_left _ ht))
          (fun t ht => hacc t (List.mem_append_left _ ht))
          hpw1]
        show buildTris n obMats
          (acc ++ (faceTriples f.refs).map (mkTri (matIndexOf obMats f.tex))) rest = _
        rw [buildTris_ok n obMats rest
          (acc ++ (faceTriples f.refs).map (mkTri (matIndexOf obMats f.tex)))
          (fun t ht => hg t (List.mem_append_right _ ht))
          (by
            intro u hu tr htr
            rcases List.mem_append.mp htr with hin | hmap
            · exact hacc u (List.mem_append_right _ hu) tr hin
            · obtain ⟨t0, ht0, he⟩ := List.mem_map.mp hmap
              rw [← he]
              exact hcross t0 ht0 u hu)
          hpw2]
        rw [List.flatMap_cons, if_neg hlen, List.append_assoc]

/-! ### Material-cache lemmas -/

/-- A cache hit is unaffected by extending the cache on the right (Python
`dict` lookup: an existing key keeps its value whatever is inserted
later). -/
theorem lookupCache_append : ∀ (c : List (String × MatHandle)) (ext : List (String × MatHandle))
    (t : String) (m : MatHandle), lookupCache c t = some m →
    lookupCache (c ++ ext) t = some m
  | [], _, _, _, h => by simp [lookupCache] at h
  | (k, m') :: c', ext, t, m, h => by
      simp only [lookupCache] at h ⊢
      by_cases hk : k = t
      · rw [if_pos hk] at h ⊢; exact h
      · rw [if_neg hk] at h ⊢; exact lookupCache_append c' ext t m h

/-- Inserting an absent key at the end makes it found. -/
theorem lookupCache_insert : ∀ (c : List (String × MatHandle)) (t : String)
    (m : MatHandle), lookupCache c t = none →
    lookupCache (c ++ [(t, m)]) t = some m
  | [], t, m, _ => by simp [lookupCache]
  | (k, m') :: c', t, m, h => by
      simp only [lookupCache] at h ⊢
      by_cases hk : k = t
      · rw [if_pos hk] at h; cases h
      · rw [if_neg hk] at h ⊢; exact lookupCache_insert c' t m h

/-- A cache hit comes from an entry of the cache. -/
theorem lookupCache_mem : ∀ (c : List (String × MatHandle)) (t : String)
    (m : MatHandle), lookupCache c t = some m → (t, m) ∈ c
  | [], _, _, h => by simp [lookupCache] at h
  | (k, m') :: c', t, m, h => by
      simp only [lookupCache] at h
      by_cases hk : k = t
      · rw [if_pos hk] at h
        cases h
        exact hk ▸ List.mem_cons_self _ _
      · rw [if_neg hk] at h
        exact List.mem_cons_of_mem _ (lookupCache_mem c' t m h)

/-- A cache miss is exactly the key being absent from the key list. -/
theorem lookupCache_none_iff : ∀ (c : List (String × MatHandle)) (t : String),
    lookupCache c t = none ↔ ¬ t ∈ c.map Prod.fst
  | [], t => by simp [lookupCache]
  | (k, m') :: c', t => by
      simp only [lookupCache, List.map_cons, List.mem_cons]
      by_cases hk : k = t
      · rw [if_pos hk]; simp [hk]
      · rw [if_neg hk]
        rw [lookupCache_none_iff c' t]
        constructor
        · intro hn hmem
          rcases hmem with he | hm
          · exact hk he.symm
          · exact hn hm
        · intro hn hm
          exact hn (Or.inr hm)

/-- The material pass only ever extends the shared cache. -/
theorem matsPass_cacheExtends {α : Type} : ∀ (faces : List (GeoFace α))
    (cache : List (String × MatHandle)) (fresh : Nat) (obMats : List MatHandle),
    cache <+: (matsPass faces cache fresh obMats).1
  | [], cache, fresh, obMats => List.prefix_refl cache
  | f :: rest, cache, fresh, obMats => by
      simp only [matsPass]
      cases hl : lookupCache cache f.tex with
      | some m =>
          simp only [hl]
          exact matsPass_cacheExtends rest cache fresh _
      | none =>
          simp only [hl]
          exact (List.prefix_append cache [(f.tex, ⟨fresh, f.tex⟩)]).trans
            (matsPass_cacheExtends rest (cache ++ [(f.tex, ⟨fresh, f.tex⟩)]) (fresh + 1) _)

/-- Key list of the cache after the material pass: insert-if-absent over
the faces' texture names, in first-appearance order. -/
theorem matsPass_keys {α : Type} : ∀ (faces : List (GeoFace α))
    (cache : List (String × MatHandle)) (fresh : Nat) (obMats : List MatHandle),
    ((matsPass faces cache fresh obMats).1).map Prod.fst =
      addKeys (cache.map Prod.fst) (faces.map GeoFace.tex)
  | [], cache, fresh, obMats => rfl
  | f :: rest, cache, fresh, obMats => by
      simp only [matsPass, List.map_cons]
      cases hl : lookupCache cache f.tex with
      | some m =>
          simp only [hl]
          rw [matsPass_keys rest cache fresh _]
          have hc : (cache.map Prod.fst).contains f.tex = true := by
            have hmem : f.tex ∈ cache.map Prod.fst := by
              by_contra hn
              rw [← lookupCache_none_iff cache f.tex] at hn
              rw [hn] at hl
              cases hl
            simpa using hmem
          show _ = addKeys (cache.map Prod.fst) (f.tex :: rest.map GeoFace.tex)
          simp only [addKeys, List.foldl_cons, hc, if_pos]
      | none =>
          simp only [hl]
          rw [matsPass_keys rest]
          have hc : (cache.map Prod.fst).contains f.tex = false := by
            have hmem : ¬ f.tex ∈ cache.map Prod.fst :=
              (lookupCache_none_iff cache f.tex).mp hl
            simpa using hmem
          show _ = addKeys (cache.map Prod.fst) (f.tex :: rest.map GeoFace.tex)
          simp only [addKeys, List.foldl_cons, hc]
          simp [List.map_append]

/-- The material pass preserves the invariant that every cache entry's
handle is named after its key. -/
theorem matsPass_mname {α : Type} : ∀ (faces : List (GeoFace α))
    (cache : List (String × MatHandle)) (fresh : Nat) (obMats : List MatHandle),
    (∀ p ∈ cache, p.2.mname = p.1) →
    ∀ p ∈ (matsPass faces cache fresh obMats).1, p.2.mname = p.1
  | [], cache, fresh, obMats, hinv => hinv
  | f :: rest, cache, fresh, obMats, hinv => by
      simp only [matsPass]
      cases hl : lookupCache cache f.tex with
      | some m =>
          simp only [hl]
          exact matsPass_mname rest cache fresh _ hinv
      | none =>
          simp only [hl]
          refine matsPass_mname rest (cache ++ [(f.tex, ⟨fresh, f.tex⟩)]) (fresh + 1) _ ?_
          intro p hp
          rcases List.mem_append.mp hp with hin | hone
          · exact hinv p hin
          · rw [List.mem_singleton.mp hone]

/-- Every material registered on an object's slot list by the material
pass is the handle the (final) cache holds for its name. -/
theorem matsPass_obMats {α : Type} : ∀ (faces : List (GeoFace α))
    (cache : List (String × MatHandle)) (fresh : Nat) (obMats : List MatHandle),
    (∀ p ∈ cache, p.2.mname = p.1) →
    (∀ m ∈ obMats, lookupCache cache m.mname = some m) →
    ∀ m ∈ (matsPass faces cache fresh obMats).2.2,
      lookupCache (matsPass faces cache fresh obMats).1 m.mname = some m
  | [], cache, fresh, obMats, _, htrack => htrack
  | f :: rest, cache, fresh, obMats, hinv, htrack => by
      simp only [matsPass]
      cases hl : lookupCache cache f.tex with
      | some m =>
          simp only [hl]
          refine matsPass_obMats rest cache fresh _ hinv ?_
          intro m' hm'
          by_cases hany : obMats.any (fun m2 => m2.mname = m.mname)
          · rw [if_pos hany] at hm'
            exact htrack m' hm'
          · rw [if_neg hany] at hm'
            rcases List.mem_append.mp hm' with hin | hone
            · exact htrack m' hin
            · rw [List.mem_singleton.mp hone]
              have hname : m.mname = f.tex := hinv (f.tex, m) (lookupCache_mem cache f.tex m hl)
              rw [hname]
              exact hl
      | none =>
          simp only [hl]
          refine matsPass_obMats rest (cache ++ [(f.tex, ⟨fresh, f.tex⟩)]) (fresh + 1) _
            (fun p hp => by
              rcases List.mem_append.mp hp with hin | hone
              · exact hinv p hin
              · rw [List.mem_singleton.mp hone]) ?_
          intro m' hm'
          have hnew : lookupCache (cache ++ [(f.tex, ⟨fresh, f.tex⟩)]) f.tex =
              some ⟨fresh, f.tex⟩ := lookupCache_insert cache f.tex ⟨fresh, f.tex⟩ hl
          by_cases hany : obMats.any
              (fun m2 => m2.mname = (MatHandle.mk fresh f.tex).mname)
          · rw [if_pos hany] at hm'
            exact lookupCache_append cache _ m'.mname m' (htrack m' hm')
          · rw [if_neg hany] at hm'
            rcases List.mem_append.mp hm' with hin | hone
            · exact lookupCache_append cache _ m'.mname m' (htrack m' hin)
            · rw [List.mem_singleton.mp hone]
              exact hnew

/-- Insert-if-absent preserves distinctness of the key list. -/
theorem addKeys_nodup : ∀ (ts ks : List String), ks.Nodup → (addKeys ks ts).Nodup
  | [], ks, h => h
  | t :: ts, ks, h => by
      show (addKeys (if ks.contains t then ks else ks ++ [t]) ts).Nodup
      by_cases hc : ks.contains t
      · rw [if_pos hc]; exact addKeys_nodup ts ks h
      · rw [if_neg hc]
        refine addKeys_nodup ts (ks ++ [t]) ?_
        have hnm : ¬ t ∈ ks := by simpa using hc
        simp [List.nodup_append, h, hnm]

/-- Splitting insert-if-absent accumulation. -/
theorem addKeys_append (ks ts1 ts2 : List String) :
    addKeys ks (ts1 ++ ts2) = addKeys (addKeys ks ts1) ts2 := by
  simp [addKeys, List.foldl_append]

/-- The cache and counter state returned by `build_mesh` is that of its
material pass, whether or not the triangle pass raised. -/
theorem build_mesh_cache {α : Type} [Mul α] (geo : GeoModel α) (scale : α)
    (cache : List (String × MatHandle)) (fresh : Nat) :
    (build_mesh geo scale cache fresh).2 =
      ((matsPass geo.faces cache fresh []).1,
        (matsPass geo.faces cache fresh []).2.1) := by
  simp only [build_mesh]
  split <;> rfl

/-- A successfully built object's material slots are the ones the
material pass registered. -/
theorem build_mesh_ok_mats {α : Type} [Mul α] (geo : GeoModel α) (scale : α)
    (cache : List (String × MatHandle)) (fresh : Nat) (ob : MeshObject α) :
    (build_mesh geo scale cache fresh).1 = .ok ob →
    ob.mats = (matsPass geo.faces cache fresh []).2.2 := by
  simp only [build_mesh]
  split
  · intro h; cases h
  · intro h
    injection h with h
    rw [← h]

/-- Across a batch of build calls, the shared cache is only extended. -/
theorem buildAll_cacheExtends {α : Type} [Mul α] (scale : α) :
    ∀ (models : List (GeoModel α)) (cache : List (String × MatHandle)) (fresh : Nat),
    cache <+: (buildAll scale models cache fresh).2.1
  | [], cache, _ => List.prefix_refl cache
  | g :: rest, cache, fresh => by
      simp only [buildAll]
      have h1 : cache <+: (build_mesh g scale cache fresh).2.1 := by
        rw [build_mesh_cache]
        exact matsPass_cacheExtends g.faces cache fresh []
      exact h1.trans (buildAll_cacheExtends scale rest _ _)

/-- Key list of the shared cache after a batch of build calls. -/
theorem buildAll_keys {α : Type} [Mul α] (scale : α) :
    ∀ (models : List (GeoModel α)) (cache : List (String × MatHandle)) (fresh : Nat),
    ((buildAll scale models cache fresh).2.1).map Prod.fst =
      addKeys (cache.map Prod.fst)
        (models.flatMap (fun g => g.faces.map GeoFace.tex))
  | [], _, _ => rfl
  | g :: rest, cache, fresh => by
      simp only [buildAll, List.flatMap_cons]
      rw [buildAll_keys scale rest]
      rw [show ((build_mesh g scale cache fresh).2.1).map Prod.fst =
          addKeys (cache.map Prod.fst) (g.faces.map GeoFace.tex) from by
        rw [build_mesh_cache]
        exact matsPass_keys g.faces cache fresh []]
      rw [addKeys_append]

/-- The cache key/name invariant survives a batch of build calls. -/
theorem buildAll_mname {α : Type} [Mul α] (scale : α) :
    ∀ (models : List (GeoModel α)) (cache : List (String × MatHandle)) (fresh : Nat),
    (∀ p ∈ cache, p.2.mname = p.1) →
    ∀ p ∈ (buildAll scale models cache fresh).2.1, p.2.mname = p.1
  | [], _, _, hinv => hinv
  | g :: rest, cache, fresh, hinv => by
      simp only [buildAll]
      refine buildAll_mname scale rest _ _ ?_
      rw [build_mesh_cache]
      exact matsPass_mname g.faces cache fresh [] hinv

/-- Every material slot of every successfully built object of a batch is
the handle the final shared cache holds for its texture name. -/
theorem buildAll_mats {α : Type} [Mul α] (scale : α) :
    ∀ (models : List (GeoModel α)) (cache : List (String × MatHandle)) (fresh : Nat),
    (∀ p ∈ cache, p.2.mname = p.1) →
    ∀ ml ∈ (buildAll scale models cache fresh).1, ∀ m ∈ ml,
      lookupCache (buildAll scale models cache fresh).2.1 m.mname = some m
  | [], _, _, _ => by simp [buildAll]
  | g :: rest, cache, fresh, hinv => by
      simp only [buildAll]
      intro ml hml m hm
      have hinv2 : ∀ p ∈ (build_mesh g scale cache fresh).2.1, p.2.mname = p.1 := by
        rw [build_mesh_cache]
        exact matsPass_mname g.faces cache fresh [] hinv
      rcases List.mem_append.mp hml with hhead | htail
      · rcases hok : (build_mesh g scale cache fresh).1 with e | ob
        · rw [hok] at hhead; cases hhead
        · rw [hok] at hhead
          have he : ml = ob.mats := List.mem_singleton.mp hhead
          have htr : lookupCache (build_mesh g scale cache fresh).2.1 m.mname =
              some m := by
            have hmats := build_mesh_ok_mats g scale cache fresh ob hok
            rw [build_mesh_cache]
            refine matsPass_obMats g.faces cache fresh [] hinv (by simp) m ?_
            rw [← hmats, ← he]
            exact hm
          obtain ⟨ext, hext⟩ := buildAll_cacheExtends scale rest
            (build_mesh g scale cache fresh).2.1 (build_mesh g scale cache fresh).2.2
          rw [← hext]
          exact lookupCache_append _ ext m.mname m htr
      · exact buildAll_mats scale rest _ _ hinv2 ml htail m hm

/-- Batch builds compose: the cache and counter after `l1 ++ l2` are
those of running `l2` from the state `l1` left behind. -/
theorem buildAll_append {α : Type} [Mul α] (scale : α) :
    ∀ (l1 l2 : List (GeoModel α)) (cache : List (String × MatHandle)) (fresh : Nat),
    (buildAll scale (l1 ++ l2) cache fresh).2 =
      (buildAll scale l2 (buildAll scale l1 cache fresh).2.1
        (buildAll scale l1 cache fresh).2.2).2
  | [], _, _, _ => rfl
  | g :: l1, l2, cache, fresh => by
      simp only [List.cons_append, buildAll]
      exact buildAll_append scale l1 l2 _ _

/-! ### Claim theorems -/

/-- C2 counterexample: two well-formed files that differ only in their
normals block decode to the *same* model, so the returned model cannot
retain a normals array — refuting "retained on the model". -/
theorem c2_counterexample :
    bFileOk ≠ bFileOkAltNorms ∧
    parse_geo_classic "f" bFileOk = .ok mFileOk ∧
    parse_geo_classic "f" bFileOkAltNorms = .ok mFileOk :=
  ⟨by decide, by decide, by decide⟩

/-- C2 (amended): the decoder reads `vertex_count` 3-float normal vectors
after the vertices — their 12·V bytes must be present and are consumed —
but does not retain them: the parse result is unchanged under any
replacement of the normals block. -/
theorem c2_amended (vct fct : Nat) (vb nb1 nb2 fb : Bytes)
    (hv : vb.length = 12 * vct) (h1 : nb1.length = 12 * vct)
    (h2 : nb2.length = 12 * vct) :
    parseBody vct fct (vb ++ (nb1 ++ fb)) = parseBody vct fct (vb ++ (nb2 ++ fb)) := by
  simp only [parseBody, readVec3s_exact vct vb (nb1 ++ fb) hv,
    readVec3s_exact vct vb (nb2 ++ fb) hv,
    readVec3s_exact vct nb1 fb h1, readVec3s_exact vct nb2 fb h2]

/-- C2 witness: the amended statement at a concrete 1-vertex body. -/
theorem c2_amended_witness :
    parseBody 1 0 (List.replicate 12 0 ++ (List.replicate 12 0 ++ [])) =
      parseBody 1 0 (List.replicate 12 0 ++ (List.replicate 12 1 ++ [])) :=
  c2_amended 1 0 (List.replicate 12 0) (List.replicate 12 0)
    (List.replicate 12 1) [] (by decide) (by decide) (by decide)

/-- C3 counterexample: a face whose 13-byte texture field is all zero
bytes decodes to the sentinel "i76_default", not "default". -/
theorem c3_counterexample :
    parseFace bFaceZeroTex = .ok (⟨"i76_default", []⟩, []) ∧
    "i76_default" ≠ "default" :=
  ⟨by decide, by decide⟩

/-- C3 (amended): a face whose texture field decodes to the empty string
gets the sentinel texture name "i76_default" (source line 58). -/
theorem c3_amended (fid nv : Nat) (op texb u8 cb rest : Bytes)
    (hnv : nv < 4294967296) (hop : op.length = 26) (htex : texb.length = 13)
    (hu : u8.length = 8) (hcb : cb.length = 16 * nv)
    (hempty : cstrOf texb = "") :
    parseFace (u32le fid ++ (u32le nv ++ (op ++ (texb ++ (u8 ++ (cb ++ rest)))))) =
      .ok (⟨"i76_default", decodeCorners nv cb⟩, rest) := by
  rw [parseFace_march fid nv op texb u8 (cb ++ rest) hnv hop htex hu,
    parseCorners_exact nv cb rest hcb]
  simp [hempty]

/-- C3 witness: the amended statement at a concrete all-zero texture
field. -/
theorem c3_amended_witness :
    parseFace (u32le 0 ++ (u32le 0 ++ (List.replicate 26 0 ++
      (List.replicate 13 0 ++ (List.replicate 8 0 ++ (([] : Bytes) ++ [])))))) =
      .ok (⟨"i76_default", decodeCorners 0 []⟩, []) :=
  c3_amended 0 0 (List.replicate 26 0) (List.replicate 13 0)
    (List.replicate 8 0) [] [] (by decide) (by decide) (by decide) (by decide)
    (by decide) (by decide)

/-- C4 counterexample: on a face record whose texture field "AB" sits
right after 26 opaque bytes, the source decoder reads "AB" while a
decoder with the spec's claimed 28-byte opaque block (57-byte fixed
header) reads an empty field — the two layouts disagree, so the opaque
block is not 28 bytes. -/
theorem c4_counterexample :
    parseFace bFaceAB = .ok (⟨"AB", []⟩, []) ∧
    parseFace_spec57 bFaceAB = .ok (⟨"i76_default", []⟩, []) ∧
    parseFace bFaceAB ≠ parseFace_spec57 bFaceAB :=
  ⟨by decide, by decide, by decide⟩

/-- C4 (amended): the opaque face-header block is exactly 26 bytes
(3 + 16 + 4 + 3), so each face's fixed header totals
4 (id) + 4 (nv) + 26 + 13 (texture) + 4 + 4 = 55 bytes before the corner
records, which then consume exactly 16·nv bytes. -/
theorem c4_amended (fid nv : Nat) (op texb u8 cb rest : Bytes)
    (hnv : nv < 4294967296) (hop : op.length = 26) (htex : texb.length = 13)
    (hu : u8.length = 8) (hcb : cb.length = 16 * nv) :
    parseFace (u32le fid ++ (u32le nv ++ (op ++ (texb ++ (u8 ++ (cb ++ rest)))))) =
      .ok (⟨if cstrOf texb = "" then "i76_default" else cstrOf texb,
        decodeCorners nv cb⟩, rest) := by
  rw [parseFace_march fid nv op texb u8 (cb ++ rest) hnv hop htex hu,
    parseCorners_exact nv cb rest hcb]

/-- C4 witness: the amended statement at a concrete one-corner record
followed by two trailing bytes, which are left unread. -/
theorem c4_amended_witness :
    parseFace (u32le 0 ++ (u32le 1 ++ (List.replicate 26 0 ++
      (([65, 66] ++ List.replicate 11 0) ++ (List.replicate 8 0 ++
        (List.replicate 16 0 ++ [9, 9])))))) =
      .ok (⟨if cstrOf ([65, 66] ++ List.replicate 11 0) = "" then "i76_default"
        else cstrOf ([65, 66] ++ List.replicate 11 0),
        decodeCorners 1 (List.replicate 16 0)⟩, [9, 9]) :=
  c4_amended 0 1 (List.replicate 26 0) ([65, 66] ++ List.replicate 11 0)
    (List.replicate 8 0) (List.replicate 16 0) [9, 9] (by decide) (by decide)
    (by decide) (by decide) (by decide)

/-- C10: the decoder puts no sanity bound on a face's declared corner
count: for any u32 `nv` (0 or far above 2,000,000 alike) it attempts to
read exactly `nv` 16-byte corner records — succeeding, consuming 16·nv
bytes, whenever the stream holds them, and failing with the struct error
(never an UnreasonableCounts error) exactly when the stream ends first. -/
theorem c10_claim (fid nv : Nat) (op texb u8 cb : Bytes)
    (hnv : nv < 4294967296) (hop : op.length = 26) (htex : texb.length = 13)
    (hu : u8.length = 8) :
    (16 * nv ≤ cb.length →
      parseFace (u32le fid ++ (u32le nv ++ (op ++ (texb ++ (u8 ++ cb))))) =
        .ok (⟨if cstrOf texb = "" then "i76_default" else cstrOf texb,
          decodeCorners nv (cb.take (16 * nv))⟩, cb.drop (16 * nv))) ∧
    (cb.length < 16 * nv →
      parseFace (u32le fid ++ (u32le nv ++ (op ++ (texb ++ (u8 ++ cb))))) =
        .error .structError) := by
  constructor
  · intro hle
    have hsplit : cb = cb.take (16 * nv) ++ cb.drop (16 * nv) :=
      (cb.take_append_drop _).symm
    nth_rewrite 1 [hsplit]
    rw [parseFace_march fid nv op texb u8 _ hnv hop htex hu,
      parseCorners_exact nv (cb.take (16 * nv)) (cb.drop (16 * nv))
        (by simp [List.length_take]; omega)]
  · intro hlt
    exact parseFace_fail fid nv op texb u8 cb hnv hop htex hu hlt

/-- C10 witness: a face declaring 2,000,001 corners is not rejected by
any count check; with an empty corner stream it fails with the struct
error only. -/
theorem c10_witness :
    parseFace (u32le 3 ++ (u32le 2000001 ++ (List.replicate 26 0 ++
      (List.replicate 13 0 ++ (List.replicate 8 0 ++ []))))) =
      .error .structError :=
  (c10_claim 3 2000001 (List.replicate 26 0) (List.replicate 13 0)
    (List.replicate 8 0) [] (by decide) (by decide) (by decide) (by decide)).2
    (by decide)

/-- C5 counterexample: `bFileOk` is well formed — its 115 declared bytes
are consumed exactly (`parse_geo_core` leaves an empty tail) — yet
removing its last byte still decodes to the same full model, because the
final byte lies in a trailing opaque `f.read(4)` that silently accepts a
short read; no Truncated error is raised. -/
theorem c5_counterexample :
    bFileOk.length = 115 ∧
    parse_geo_core "f" bFileOk = .ok (mFileOk, []) ∧
    parse_geo_classic "f" (bFileOk.take 114) = .ok mFileOk :=
  ⟨by decide, by decide, by decide⟩

/-- C5 (amended): truncation is a structural error exactly where it cuts
a validated 4-byte numeric read; in particular, a file whose last face
declares `nv ≥ 1` corners but whose corner block is shorter than 16·nv
bytes (for example, the last byte of a well-formed file with corners
removed) fails with the struct error.  Truncation confined to the
trailing opaque/string reads of a last face with no corners is silently
accepted (see the counterexample). -/
theorem c5_amended (basename nm : String) (vct fct fid nv : Nat)
    (hb vb nb fb op texb u8 cb : Bytes) (fs : List (GeoFace Nat))
    (hh : ∀ rest, parseHeader basename (hb ++ rest) = .ok ((nm, vct, fct), rest))
    (hv : vb.length = 12 * vct) (hn : nb.length = 12 * vct)
    (hfb : ∀ rest, parseFaces (fct - 1) (fb ++ rest) = .ok (fs, rest))
    (hfct : 1 ≤ fct) (hnv : nv < 4294967296)
    (hop : op.length = 26) (htex : texb.length = 13) (hu : u8.length = 8)
    (hcb : cb.length < 16 * nv)
    (hlen : 64 ≤ (hb ++ (vb ++ (nb ++ (fb ++ (u32le fid ++ (u32le nv ++
      (op ++ (texb ++ (u8 ++ cb))))))))).length) :
    parse_geo_classic basename (hb ++ (vb ++ (nb ++ (fb ++ (u32le fid ++ (u32le nv ++
      (op ++ (texb ++ (u8 ++ cb))))))))) = .error .structError := by
  have hone : parseFaces 1 (u32le fid ++ (u32le nv ++ (op ++ (texb ++ (u8 ++ cb))))) =
      .error .structError := by
    have h01 := parseFaces_succ 0 (u32le fid ++ (u32le nv ++ (op ++ (texb ++ (u8 ++ cb)))))
    rw [Nat.zero_add] at h01
    rw [h01, parseFace_fail fid nv op texb u8 cb hnv hop htex hu hcb]
  have hfaces : parseFaces fct (fb ++ (u32le fid ++ (u32le nv ++
      (op ++ (texb ++ (u8 ++ cb)))))) = .error .structError := by
    have hadd := parseFaces_add (fct - 1) 1 (fb ++ (u32le fid ++ (u32le nv ++
      (op ++ (texb ++ (u8 ++ cb))))))
    rw [Nat.sub_add_cancel hfct] at hadd
    rw [hadd]
    simp only [hfb, hone]
  have hbody : parseBody vct fct (vb ++ (nb ++ (fb ++ (u32le fid ++ (u32le nv ++
      (op ++ (texb ++ (u8 ++ cb)))))))) = .error .structError := by
    simp only [parseBody, readVec3s_exact vct vb _ hv, readVec3s_exact vct nb _ hn,
      hfaces]
  have hlen' : ¬ ((hb ++ (vb ++ (nb ++ (fb ++ (u32le fid ++ (u32le nv ++
      (op ++ (texb ++ (u8 ++ cb))))))))).length < 64) := by omega
  simp only [parse_geo_classic, parse_geo_core, if_neg hlen', hh, hbody]

/-- C5 witness: a 130-byte file — a well-formed one-corner file with its
last byte removed — fails with the struct error. -/
theorem c5_amended_witness :
    parse_geo_classic "f" (hdr36 1 1 ++ (List.replicate 12 0 ++
      (List.replicate 12 0 ++ (([] : Bytes) ++ (u32le 0 ++ (u32le 1 ++
        (List.replicate 26 0 ++ (List.replicate 13 0 ++ (List.replicate 8 0 ++
          List.replicate 15 0))))))))) = .error .structError :=
  c5_amended "f" "f" 1 1 0 1 (hdr36 1 1) (List.replicate 12 0)
    (List.replicate 12 0) [] (List.replicate 26 0) (List.replicate 13 0)
    (List.replicate 8 0) (List.replicate 15 0) []
    (fun rest => rfl) (by decide) (by decide) (fun rest => rfl) (by decide)
    (by decide) (by decide) (by decide) (by decide) (by decide) (by decide)

/-- C1 counterexample: a parsed model whose only face carries one
out-of-range corner among valid ones.  The build does not skip just that
corner's triangles: the whole build aborts with the IndexError (line 108
indexes the Python list outside the `except ValueError` recovery), and
the batch reports the file as failed, not imported. -/
theorem c1_counterexample :
    parse_geo_classic "f" bFileBadIdx = .ok mBadIdx ∧
    (build_mesh mBadIdx 1 [] 0).1 = .error .indexError ∧
    (executeBatch 1 [⟨"p", "f", bFileBadIdx⟩] [] 0 0 []).1 = 0 ∧
    (executeBatch 1 [⟨"p", "f", bFileBadIdx⟩] [] 0 0 []).2.1 =
      [("p", "list index out of range")] :=
  ⟨by decide, by decide, by decide, by decide⟩

/-- C1 (amended): an out-of-range vertex index in any attempted fan
triangle is a per-file failure, not a per-triangle skip: `build_mesh`
raises the uncaught IndexError, and the batch records the file in the
error list with `str(e)` = "list index out of range" instead of counting
it as imported.  (Only `ValueError` — degenerate or duplicate triangles —
is recovered per-triangle.) -/
theorem c1_amended (scale : Nat) (file : BatchFile)
    (cache : List (String × MatHandle)) (fresh imported : Nat)
    (errors : List (String × String)) (m : GeoModel Nat)
    (hp : parse_geo_classic file.basename file.data = .ok m)
    (hbad : ∃ f ∈ m.faces, 3 ≤ f.refs.length ∧ ∃ t ∈ faceTriples f.refs,
      m.verts.length ≤ t.1.vi ∨ m.verts.length ≤ t.2.1.vi ∨
        m.verts.length ≤ t.2.2.vi) :
    (executeBatch scale [file] cache fresh imported errors).1 = imported ∧
    (executeBatch scale [file] cache fresh imported errors).2.1 =
      errors ++ [(file.path, "list index out of range")] := by
  have hb := build_mesh_err m scale cache fresh hbad
  simp [executeBatch, hp, hb, buildErrMsg]

/-- C1 witness: the amended statement at the concrete bad-index file. -/
theorem c1_amended_witness :
    (executeBatch 1 [⟨"p", "f", bFileBadIdx⟩] [] 0 2 [("q", "x")]).1 = 2 ∧
    (executeBatch 1 [⟨"p", "f", bFileBadIdx⟩] [] 0 2 [("q", "x")]).2.1 =
      [("q", "x")] ++ [("p", "list index out of range")] :=
  c1_amended 1 ⟨"p", "f", bFileBadIdx⟩ [] 0 2 [("q", "x")] mBadIdx
    (by decide) (by decide)

/-- C6 counterexample: a face whose corners are [0, 0, 1] over 2 vertices
has exactly one fan triple, but the build emits zero triangles for it —
`bm.faces.new` rejects the repeated vertex handle (ValueError) and the
loop skips it — refuting "emits exactly the fan triangles
(c0, c_{i-1}, c_i)" as stated. -/
theorem c6_counterexample :
    (allTriples mDegen.faces).length = 1 ∧
    (build_mesh mDegen 1 [] 0).1 =
      .ok ⟨"m", [(0, 0, 0), (1, 1, 1)], [], [⟨0, "t"⟩]⟩ :=
  ⟨by decide, by decide⟩

/-- C6 (amended): when every attempted fan triple has in-range, pairwise
distinct vertex indices and no two attempted triples of the file share
their vertex set, the builder emits, face by face and in order, exactly
the fan triangles `(c0, c_{i-1}, c_i)` of every face with at least 3
corners — each with that face's material index and its corners' UV pairs
in matching positions — and emits none for faces with fewer than 3
corners, without error. -/
theorem c6_amended {α : Type} [Mul α] (geo : GeoModel α) (scale : α)
    (cache : List (String × MatHandle)) (fresh : Nat)
    (hall : ∀ t ∈ allTriples geo.faces, goodTri geo.verts.length (triOf t))
    (hpw : (allTriples geo.faces).Pairwise
      (fun t u => triSetEq (triOf t) (triOf u) = false)) :
    (build_mesh geo scale cache fresh).1 = .ok
      ⟨geo.name, geo.verts.map (scaleVert scale),
        geo.faces.flatMap (fun f => if f.refs.length < 3 then [] else
          (faceTriples f.refs).map
            (mkTri (matIndexOf (matsPass geo.faces cache fresh []).2.2 f.tex))),
        (matsPass geo.faces cache fresh []).2.2⟩ := by
  simp only [build_mesh]
  rw [buildTris_ok geo.verts.length (matsPass geo.faces cache fresh []).2.2
    geo.faces [] hall (fun t _ tr htr => absurd htr (List.not_mem_nil tr)) hpw]
  simp

/-- C6 witness: the amended statement at a concrete quad over 4 distinct
vertices. -/
theorem c6_amended_witness :
    (build_mesh mQuad 1 [] 0).1 = .ok
      ⟨mQuad.name, mQuad.verts.map (scaleVert 1),
        mQuad.faces.flatMap (fun f => if f.refs.length < 3 then [] else
          (faceTriples f.refs).map
            (mkTri (matIndexOf (matsPass mQuad.faces [] 0 []).2.2 f.tex))),
        (matsPass mQuad.faces [] 0 []).2.2⟩ :=
  c6_amended mQuad 1 [] 0 (by decide) (by decide)

/-- C7: across any batch of build calls sharing one material cache
(started empty, as `execute` does at line 181): the cache after any
prefix of the batch is a prefix of the final cache (entries are only
appended, never overwritten); the final key list is exactly one entry
per distinct texture name encountered, in first-appearance order, with
no duplicate keys; and every material slot of every built object is the
very handle the final cache maps its texture name to — so all faces
bearing one texture name, across all files, share one handle. -/
theorem c7_claim {α : Type} [Mul α] (scale : α) (models : List (GeoModel α)) :
    (∀ i, (buildAll scale (models.take i) [] 0).2.1 <+:
      (buildAll scale models [] 0).2.1) ∧
    ((buildAll scale models [] 0).2.1.map Prod.fst).Nodup ∧
    (buildAll scale models [] 0).2.1.map Prod.fst =
      addKeys [] (models.flatMap (fun g => g.faces.map GeoFace.tex)) ∧
    (∀ ml ∈ (buildAll scale models [] 0).1, ∀ m ∈ ml,
      lookupCache (buildAll scale models [] 0).2.1 m.mname = some m) := by
  refine ⟨?_, ?_, ?_, ?_⟩
  · intro i
    have happ := buildAll_append scale (models.take i) (models.drop i) [] 0
    conv_rhs => rw [← List.take_append_drop i models]
    rw [happ]
    exact buildAll_cacheExtends scale (models.drop i) _ _
  · rw [buildAll_keys scale models [] 0]
    exact addKeys_nodup _ _ List.nodup_nil
  · simpa using buildAll_keys scale models [] 0
  · exact buildAll_mats scale models [] 0 (by simp)

/-- C7 witness: a batch of three files all referencing "chrome01" ends
with exactly one cache entry for that key, and the first file's cache
state is a prefix of the final one. -/
theorem c7_witness :
    (buildAll (1 : Nat) [mChrome, mChrome, mChrome] [] 0).2.1.map Prod.fst =
      addKeys [] ([mChrome, mChrome, mChrome].flatMap
        (fun g => g.faces.map GeoFace.tex)) ∧
    (buildAll (1 : Nat) [mChrome] [] 0).2.1 <+:
      (buildAll (1 : Nat) [mChrome, mChrome, mChrome] [] 0).2.1 ∧
    (buildAll (1 : Nat) [mChrome, mChrome, mChrome] [] 0).2.1.map Prod.fst =
      ["chrome01"] :=
  ⟨(c7_claim 1 [mChrome, mChrome, mChrome]).2.2.1,
    (c7_claim 1 [mChrome, mChrome, mChrome]).1 1,
    by decide⟩

/-- C8: building the same model with scale 2 instead of scale 1 leaves
the cache state, error behaviour, triangle list (indices, material
indices, UVs, smooth flags), material slots and name unchanged, and
doubles every component of every vertex position. -/
theorem c8_claim (geo : GeoModel ℚ) (cache : List (String × MatHandle))
    (fresh : Nat) :
    (build_mesh geo 2 cache fresh).2 = (build_mesh geo 1 cache fresh).2 ∧
    (∀ ob1, (build_mesh geo 1 cache fresh).1 = .ok ob1 →
      ∃ ob2, (build_mesh geo 2 cache fresh).1 = .ok ob2 ∧
        ob2.positions = ob1.positions.map (fun p => (2 * p.1, 2 * p.2.1, 2 * p.2.2)) ∧
        ob2.tris = ob1.tris ∧ ob2.mats = ob1.mats ∧ ob2.oname = ob1.oname) ∧
    (∀ e, (build_mesh geo 1 cache fresh).1 = .error e →
      (build_mesh geo 2 cache fresh).1 = .error e) := by
  have hpos : geo.verts.map (scaleVert (2 : ℚ)) =
      (geo.verts.map (scaleVert (1 : ℚ))).map
        (fun p => (2 * p.1, 2 * p.2.1, 2 * p.2.2)) := by
    rw [List.map_map]
    refine List.map_congr_left (fun p _ => ?_)
    simp only [Function.comp, scaleVert]
    refine Prod.ext ?_ (Prod.ext ?_ ?_) <;> dsimp <;> ring
  simp only [build_mesh]
  cases h : buildTris geo.verts.length (matsPass geo.faces cache fresh []).2.2
      [] geo.faces with
  | error e =>
      refine ⟨rfl, ?_, ?_⟩
      · intro ob1 h1; simp at h1
      · intro e' h'; exact h'
  | ok tris =>
      refine ⟨rfl, ?_, ?_⟩
      · intro ob1 h1
        simp only [Except.ok.injEq] at h1
        refine ⟨_, rfl, ?_, ?_, ?_, ?_⟩ <;> rw [← h1] <;> simp [hpos]
      · intro e' h'; simp at h'

/-- The batch loop's bookkeeping: every file contributes exactly one of
"imported" or one error entry; earlier errors are preserved in place;
every new error entry carries the path of one of the attempted files. -/
theorem executeBatch_spec (scale : Nat) : ∀ (files : List BatchFile)
    (cache : List (String × MatHandle)) (fresh imported : Nat)
    (errors : List (String × String)),
    (executeBatch scale files cache fresh imported errors).1 +
      ((executeBatch scale files cache fresh imported errors).2.1).length =
      imported + errors.length + files.length ∧
    errors <+: (executeBatch scale files cache fresh imported errors).2.1 ∧
    (∀ e ∈ (executeBatch scale files cache fresh imported errors).2.1.drop
      errors.length, e.1 ∈ files.map BatchFile.path)
  | [], cache, fresh, imported, errors => by
      refine ⟨by simp [executeBatch], List.prefix_refl errors, ?_⟩
      intro e he
      rw [show (executeBatch scale [] cache fresh imported errors).2.1 = errors
        from rfl, List.drop_length] at he
      cases he
  | file :: rest, cache, fresh, imported, errors => by
      simp only [executeBatch]
      cases hp : parse_geo_classic file.basename file.data with
      | error err =>
          have ih := executeBatch_spec scale rest cache fresh imported
            (errors ++ [(file.path, geoErrMsg err)])
          obtain ⟨t, ht⟩ := ih.2.1
          refine ⟨?_, ?_, ?_⟩
          · have h1 := ih.1
            simp only [List.length_append, List.length_cons,
              List.length_nil] at h1 ⊢
            omega
          · exact (List.prefix_append errors [(file.path, geoErrMsg err)]).trans ih.2.1
          · intro e he
            rw [← ht, List.append_assoc, List.drop_left] at he
            rcases List.mem_cons.mp (by simpa using he) with he1 | he2
            · rw [he1]
              simp [List.map_cons]
            · have hmem := ih.2.2 e (by
                rw [← ht, List.drop_left]
                exact he2)
              simp only [List.map_cons, List.mem_cons]
              exact Or.inr hmem
      | ok geo =>
          cases hb : (build_mesh geo scale cache fresh).1 with
          | error err =>
              have ih := executeBatch_spec scale rest
                (build_mesh geo scale cache fresh).2.1
                (build_mesh geo scale cache fresh).2.2 imported
                (errors ++ [(file.path, buildErrMsg err)])
              obtain ⟨t, ht⟩ := ih.2.1
              simp only [hb]
              refine ⟨?_, ?_, ?_⟩
              · have h1 := ih.1
                simp only [List.length_append, List.length_cons,
                  List.length_nil] at h1 ⊢
                omega
              · exact (List.prefix_append errors
                  [(file.path, buildErrMsg err)]).trans ih.2.1
              · intro e he
                rw [← ht, List.append_assoc, List.drop_left] at he
                rcases List.mem_cons.mp (by simpa using he) with he1 | he2
                · rw [he1]
                  simp [List.map_cons]
                · have hmem := ih.2.2 e (by
                    rw [← ht, List.drop_left]
                    exact he2)
                  simp only [List.map_cons, List.mem_cons]
                  exact Or.inr hmem
          | ok ob =>
              have ih := executeBatch_spec scale rest
                (build_mesh geo scale cache fresh).2.1
                (build_mesh geo scale cache fresh).2.2 (imported + 1) errors
              simp only [hb]
              refine ⟨?_, ih.2.1, ?_⟩
              · have h1 := ih.1
                simp only [List.length_cons] at h1 ⊢
                omega
              · intro e he
                have hmem := ih.2.2 e he
                simp only [List.map_cons, List.mem_cons]
                exact Or.inr hmem

/-- C9: the batch loop attempts every path whatever happened before:
each file adds exactly one of "imported + 1" or one (path, message)
error entry — `imported` plus the number of error entries always equals
the number of attempted files — earlier error entries are never removed
or reordered, and every recorded error entry names one of the attempted
paths. -/
theorem c9_claim (scale : Nat) (files : List BatchFile)
    (cache : List (String × MatHandle)) (fresh imported : Nat)
    (errors : List (String × String)) :
    (executeBatch scale files cache fresh imported errors).1 +
      ((executeBatch scale files cache fresh imported errors).2.1).length =
      imported + errors.length + files.length ∧
    errors <+: (executeBatch scale files cache fresh imported errors).2.1 ∧
    (∀ e ∈ (executeBatch scale files cache fresh imported errors).2.1.drop
      errors.length, e.1 ∈ files.map BatchFile.path) :=
  executeBatch_spec scale files cache fresh imported errors

/-- C9 witness: three files of which the second is truncated — the batch
imports 2 and records exactly one error entry, for the second path, and
the count identity from the claim holds at this input. -/
theorem c9_witness :
    (executeBatch 1 [⟨"a", "f", bFileOk⟩, ⟨"b", "f", bFileCorner.take 130⟩,
      ⟨"c", "f", bFileOk⟩] [] 0 0 []).1 = 2 ∧
    (executeBatch 1 [⟨"a", "f", bFileOk⟩, ⟨"b", "f", bFileCorner.take 130⟩,
      ⟨"c", "f", bFileOk⟩] [] 0 0 []).2.1 =
      [("b", "unpack requires a buffer of 4 bytes")] ∧
    (executeBatch 1 [⟨"a", "f", bFileOk⟩, ⟨"b", "f", bFileCorner.take 130⟩,
      ⟨"c", "f", bFileOk⟩] [] 0 0 []).1 +
      ((executeBatch 1 [⟨"a", "f", bFileOk⟩, ⟨"b", "f", bFileCorner.take 130⟩,
        ⟨"c", "f", bFileOk⟩] [] 0 0 []).2.1).length = 0 + 0 + 3 :=
  ⟨by decide, by decide,
    (c9_claim 1 [⟨"a", "f", bFileOk⟩, ⟨"b", "f", bFileCorner.take 130⟩,
      ⟨"c", "f", bFileOk⟩] [] 0 0 []).1⟩
